import Mathlib

/-!
Verification development for the GFN (Global Footprint Network) ETL pipeline.

This file contains a shallow embedding of the pipeline's core operations:

* the Transformer of `src/gfn_pipeline/main.py` (`DltPipelineRunner._transform`)
  and the serverless transform of `infrastructure/lambda_handlers.py`
  (`handler_transform`),
* the incremental window computation (`calculate_incremental_range`),
* the run-level control flow of `DltPipelineRunner.run` governing the
  incremental watermark,
* the token-bucket rate limiter (`TokenBucketRateLimiter.acquire`),
* the retrying HTTP paths (`GFNClient.get_json` with tenacity, and the bulk
  per-year fetch `fetch_year_all_data`), driven by scripted HTTP outcomes,
* the bulk extraction orchestration (`extract_all_data`).

Python dictionaries with optional keys are embedded as structures with
`Option` fields.  A field of type `Option X` collapses the Python distinction
between an absent key and a key bound to `None`, except where the source
observes the difference (`record_type` in the lambda transform, hence
`Option (Option String)` there and for the derived `carbon_pct_of_total`).
Python floats are embedded as rationals; timestamps are opaque strings
supplied as inputs.  Python truthiness is embedded explicitly: `None`, `0`,
and the empty string are falsy.
-/

/-- Fact record as produced by `fetch_year_all_data` and consumed by the
transforms. `record_type` is `Option (Option String)`: outer `none` means the
key is absent, `some none` means the key is bound to `None`. Likewise for the
derived `carbon_pct_of_total`. -/
structure RawFact where
  country_code : Option Int
  country_name : Option String
  short_name : Option String
  iso_alpha2 : Option String
  year : Option Int
  record_type : Option (Option String)
  record_type_description : Option String
  crop_land : Option ℚ
  grazing_land : Option ℚ
  forest_land : Option ℚ
  fishing_ground : Option ℚ
  builtup_land : Option ℚ
  carbon : Option ℚ
  value : Option ℚ
  score : Option String
  extracted_at : Option String
  transformed_at : Option String
  carbon_pct_of_total : Option (Option ℚ)
deriving DecidableEq, Repr

/-- Country reference record as produced by `fetch_countries`. -/
structure Country where
  country_code : Option Int
  country_name : Option String
  short_name : Option String
  iso_alpha2 : Option String
  version : Option String
  score : Option String
  extracted_at : Option String
  transformed_at : Option String
deriving DecidableEq, Repr

/-- Entry of the `record_types` list returned by `extract_all_data`. -/
structure RTEntry where
  record_type : String
  description : String
deriving DecidableEq, Repr

/-- The dictionary passed between extract, transform and load in
`DltPipelineRunner`: keys `countries`, `footprint_data`, `record_types`. -/
structure GfnData where
  countries : List Country
  footprint_data : List RawFact
  record_types : List RTEntry
deriving DecidableEq, Repr

/-- Generic first-occurrence keyed deduplication: the loop shape shared by
the country loop and the fact loop of `DltPipelineRunner._transform` and by
the fact loop of `handler_transform`. `key` returns `none` exactly when the
record fails the required-field (truthiness) validation and is skipped;
otherwise the record is kept iff its key has not been seen, and is enriched
on the way out. -/
def dedupFirst {α K : Type} [DecidableEq K] (key : α → Option K) (enrich : α → α) :
    List K → List α → List α
  | _, [] => []
  | seen, r :: rest =>
    match key r with
    | none => dedupFirst key enrich seen rest
    | some k =>
      if k ∈ seen then dedupFirst key enrich seen rest
      else enrich r :: dedupFirst key enrich (k :: seen) rest

/-- Validation-plus-key of the fact loop in `DltPipelineRunner._transform`:
`if not all([r.get("country_code"), r.get("year"), r.get("record_type")])`
(truthiness: `None`/`0`/`""` fail) followed by
`key = (r["country_code"], r["year"], r["record_type"])`. -/
def fact_key (r : RawFact) : Option (Int × Int × String) :=
  match r.country_code, r.year, r.record_type with
  | some cc, some y, some (some rt) =>
    if cc ≠ 0 ∧ y ≠ 0 ∧ rt ≠ "" then some (cc, y, rt) else none
  | _, _, _ => none

/-- Enrichment of `DltPipelineRunner._transform`:
`{**r, "transformed_at": transformed_at}`. -/
def stamp_fact (ts : String) (r : RawFact) : RawFact :=
  { r with transformed_at := some ts }

/-- Drops the `transformed_at` stamp, for comparing transformed batches
modulo the stamp. -/
def erase_stamp (r : RawFact) : RawFact :=
  { r with transformed_at := none }

/-- Validation-plus-key of the country loop in `DltPipelineRunner._transform`:
`if not c.get("country_code"): continue` then dedup on `c["country_code"]`. -/
def country_key (c : Country) : Option Int :=
  match c.country_code with
  | some cc => if cc ≠ 0 then some cc else none
  | none => none

/-- Enrichment of the country loop: `{**c, "transformed_at": transformed_at}`. -/
def stamp_country (ts : String) (c : Country) : Country :=
  { c with transformed_at := some ts }

/-- Fact part of `DltPipelineRunner._transform` (main.py): drop records that
fail required-field truthiness validation, deduplicate by
`(country_code, year, record_type)` keeping the first occurrence, stamp
`transformed_at`. -/
def main_transform_facts (ts : String) (l : List RawFact) : List RawFact :=
  dedupFirst fact_key (stamp_fact ts) [] l

/-- Country part of `DltPipelineRunner._transform` (main.py). -/
def main_transform_countries (ts : String) (l : List Country) : List Country :=
  dedupFirst country_key (stamp_country ts) [] l

/-- Full `DltPipelineRunner._transform` (main.py): transforms countries and
facts, passes `record_types` through. -/
def main_transform (data : GfnData) (ts : String) : GfnData :=
  { countries := main_transform_countries ts data.countries
    footprint_data := main_transform_facts ts data.footprint_data
    record_types := data.record_types }

/-- Rounding used by `handler_transform`'s `round(x, 2)`: Python's `round`
rounds half to even. The argument is scaled by 100, rounded half-to-even to
an integer, and scaled back. -/
def roundHalfEven (x : ℚ) : ℤ :=
  let n : ℤ := ⌊x⌋
  let f : ℚ := x - n
  if f < 1/2 then n
  else if 1/2 < f then n + 1
  else if Even n then n else n + 1

/-- Two-decimal rounding `round(x, 2)` of `handler_transform`. -/
def round2 (x : ℚ) : ℚ :=
  (roundHalfEven (x * 100) : ℚ) / 100

/-- Derived-field computation of `handler_transform`:
`if carbon is not None and value and value > 0:
   round(carbon / value * 100, 2)
 else: None`. -/
def computePct (c v : Option ℚ) : Option ℚ :=
  match c, v with
  | some c, some v => if v ≠ 0 ∧ 0 < v then some (round2 (c / v * 100)) else none
  | _, _ => none

/-- Dedup-key component for `record_type` in `handler_transform`:
`record.get("record_type", "unknown")` — the default fires only when the key
is absent; a key bound to `None` yields `None`. -/
def handlerRT (r : RawFact) : Option String :=
  match r.record_type with
  | none => some "unknown"
  | some v => v

/-- Validation-plus-key of `handler_transform` (lambda_handlers.py):
`if not record.get("country_code") or not record.get("year")` (truthiness),
then `key = (record["country_code"], record["year"],
record.get("record_type", "unknown"))`. Note `record_type` is NOT required. -/
def handler_key (r : RawFact) : Option (Int × Int × Option String) :=
  match r.country_code, r.year with
  | some cc, some y => if cc ≠ 0 ∧ y ≠ 0 then some (cc, y, handlerRT r) else none
  | _, _ => none

/-- Enrichment of `handler_transform`: `{**record, "transformed_at": now}`
plus `enriched["carbon_pct_of_total"] = ...` per `computePct`. -/
def handler_enrich (ts : String) (r : RawFact) : RawFact :=
  { r with
    transformed_at := some ts
    carbon_pct_of_total := some (computePct r.carbon r.value) }

/-- Fact loop of `handler_transform` (lambda_handlers.py): validate
(country code and year only), deduplicate by
`(country_code, year, record.get("record_type", "unknown"))` keeping the
first occurrence, enrich with stamp and derived percentage. -/
def handler_transform_facts (ts : String) (l : List RawFact) : List RawFact :=
  dedupFirst handler_key (handler_enrich ts) [] l

/-- The incremental window computation `calculate_incremental_range`
(main.py). The persisted dlt state lookup `get_incremental_state(...)
.get("last_year")` is passed in as `last_year`. The guard embeds the source's
`if last_year and last_year >= requested_start` truthiness test: a stored
`0` is falsy and treated like an absent watermark. -/
def calculate_incremental_range (last_year : Option Int)
    (requested_start requested_end : Int) (force_full : Bool) : Int × Int :=
  if force_full then (requested_start, requested_end)
  else
    match last_year with
    | some y =>
      if y ≠ 0 ∧ requested_start ≤ y then (max (y - 1) requested_start, requested_end)
      else (requested_start, requested_end)
    | none => (requested_start, requested_end)

/-- Outcome of the pipeline run as observed for claim C4: the final status
string and the persisted `last_year` watermark. -/
structure RunOutcome where
  status : String
  last_year : Option Int
deriving DecidableEq, Repr

/-- Boolean success test for `Except`. -/
def isOkE {ε α : Type} : Except ε α → Bool
  | .ok _ => true
  | .error _ => false

/-- Control flow of `DltPipelineRunner.run` (main.py) as it governs the
persisted watermark. The outcomes of the effectful steps are inputs:
`extract_result` is the extraction step (an exception or the extracted
data), `soda_enabled`/`soda_passed`/`warn_only` describe the Soda gate
(`SodaStagingValidator.validate` raises when checks fail and
`fail_on_error = not warn_only`), and `load_results` are the per-destination
`_load_with_dlt` outcomes, run sequentially with any exception caught by the
top-level handler. `_update_state(actual_end)` runs only after every load
succeeded; every failure path returns with the pre-run state intact. -/
def runModel (pre_state : Option Int) (requested_start requested_end : Int)
    (force_full : Bool) (extract_result : Except Unit GfnData)
    (soda_enabled soda_passed warn_only : Bool)
    (load_results : List (Except Unit Unit)) : RunOutcome :=
  let r := calculate_incremental_range pre_state requested_start requested_end force_full
  match extract_result with
  | .error _ => ⟨"failed", pre_state⟩
  | .ok data =>
    if data.footprint_data.isEmpty then ⟨"no_data", pre_state⟩
    else if soda_enabled && !soda_passed && !warn_only then ⟨"failed", pre_state⟩
    else if load_results.any (fun l => !isOkE l) then ⟨"failed", pre_state⟩
    else ⟨"success", some r.2⟩

/-- State of `TokenBucketRateLimiter`: the token count and the monotonic
time of the last refill. -/
structure BucketState where
  tokens : ℚ
  last_update : ℚ
deriving DecidableEq, Repr

/-- One call of `TokenBucketRateLimiter.acquire` (pipeline_async.py) at
monotonic time `now`: replenish `tokens = min(burst, tokens + elapsed*rate)`,
set `last_update = now`; if at least one token is available consume it and
return without waiting, otherwise sleep `(1 - tokens) / rate` and set the
count to zero. Returns the wait time and the new state. -/
def acquireStep (rate burst : ℚ) (s : BucketState) (now : ℚ) : ℚ × BucketState :=
  let tk := min burst (s.tokens + (now - s.last_update) * rate)
  if 1 ≤ tk then (0, ⟨tk - 1, now⟩)
  else ((1 - tk) / rate, ⟨0, now⟩)

/-- `n` successive `acquire` calls, all issued at the same monotonic time
`now`; returns the list of waits in call order and the final state. -/
def acquireRun (rate burst : ℚ) (s : BucketState) (now : ℚ) : Nat → List ℚ × BucketState
  | 0 => ([], s)
  | n + 1 =>
    let p := acquireStep rate burst s now
    let q := acquireRun rate burst p.2 now n
    (p.1 :: q.1, q.2)

/-- Scripted outcome of one HTTP GET: a response with a status code, an
optional parsed `Retry-After` header (seconds) and a body, or a
timeout/connection error. -/
inductive HttpOutcome (β : Type) where
  | status (code : Nat) (retryAfter : Option Int) (body : β)
  | timeout
  | connError
deriving DecidableEq, Repr

/-- Raw record of the bulk endpoint `GET /data/all/{year}` (upstream field
names). `countryCode` is kept as a string to model non-numeric pseudo-codes
such as `"world"`. -/
structure ApiRecord where
  countryCode : Option String
  countryName : Option String
  shortName : Option String
  isoa2 : Option String
  year : Option Int
  record : Option String
  cropLand : Option ℚ
  grazingLand : Option ℚ
  forestLand : Option ℚ
  fishingGround : Option ℚ
  builtupLand : Option ℚ
  carbon : Option ℚ
  value : Option ℚ
  score : Option String
deriving DecidableEq, Repr

/-- Raw record of `GET /countries`. -/
structure ApiCountry where
  countryCode : Option String
  countryName : Option String
  shortName : Option String
  isoa2 : Option String
  version : Option String
  score : Option String
deriving DecidableEq, Repr

/-- Digit of Python's `int()` parsing. -/
def charDigit (c : Char) : Option Nat :=
  if '0' ≤ c ∧ c ≤ '9' then some (c.toNat - '0'.toNat) else none

/-- Accumulating digit run of Python's `int()` parsing. -/
def digitsGo (acc : Nat) : List Char → Option Nat
  | [] => some acc
  | c :: cs =>
    match charDigit c with
    | some d => digitsGo (acc * 10 + d) cs
    | none => none

/-- Nonempty digit run of Python's `int()` parsing. -/
def digits : List Char → Option Nat
  | [] => none
  | cs => digitsGo 0 cs

/-- Python's `int(s)` on a code string: an optional sign followed by digits;
anything else (e.g. `"world"`, `"all"`, the empty string) fails. Exotic
accepted forms (surrounding whitespace, `+`, underscores) do not occur in
the upstream country codes and are not modeled. -/
def strToInt (s : String) : Option Int :=
  match s.data with
  | '-' :: cs => (digits cs).map (fun n => -(n : Int))
  | cs => (digits cs).map (fun n => (n : Int))

/-- The `parse_country_code` helper of `fetch_year_all_data`: `None` for a
falsy code, otherwise `int(code)` or `None` when unparseable. -/
def parse_country_code : Option String → Option Int
  | none => none
  | some s => if s = "" then none else strToInt s

/-- Mapping of one bulk-endpoint record into a fact dictionary, including the
guard `if r.get("year") and parse_country_code(r.get("countryCode")) is not
None` of the comprehension in `fetch_year_all_data`. `descs` is the
discovered `record_type -> description` mapping and `ea` the extraction
timestamp. -/
def toFact (descs : List (String × String)) (ea : String) (r : ApiRecord) :
    Option RawFact :=
  match r.year, parse_country_code r.countryCode with
  | some y, some cc =>
    if y ≠ 0 then
      some
        { country_code := some cc
          country_name := r.countryName
          short_name := r.shortName
          iso_alpha2 := r.isoa2
          year := some y
          record_type := some r.record
          record_type_description :=
            match r.record with
            | some s => some ((descs.lookup s).getD s)
            | none => none
          crop_land := r.cropLand
          grazing_land := r.grazingLand
          forest_land := r.forestLand
          fishing_ground := r.fishingGround
          builtup_land := r.builtupLand
          carbon := r.carbon
          value := r.value
          score := r.score
          extracted_at := some ea
          transformed_at := none
          carbon_pct_of_total := none }
    else none
  | _, _ => none

/-- Attempt loop of `fetch_year_all_data` (pipeline_async.py), driven by a
script of HTTP outcomes, one per attempt. `attempt` is the 0-based loop
index of `for attempt in range(3)`. Returns the chronological list of sleeps
and the resulting fact list. On 429 the loop sleeps the parsed `Retry-After`
(default 5) and retries; a 200 maps the body through `toFact`; any other
status returns an empty list at once; a timeout or connection error sleeps
`2**attempt` and retries while `attempt < 2`, else returns empty. -/
def fetchYearGo (descs : List (String × String)) (ea : String) :
    Nat → List (HttpOutcome (List ApiRecord)) → List ℚ × List RawFact
  | _, [] => ([], [])
  | attempt, o :: rest =>
    if attempt ≥ 3 then ([], [])
    else
      match o with
      | .status code ra body =>
        if code = 429 then
          let p := fetchYearGo descs ea (attempt + 1) rest
          (((ra.getD 5 : ℤ) : ℚ) :: p.1, p.2)
        else if code = 200 then ([], body.filterMap (toFact descs ea))
        else ([], [])
      | .timeout =>
        if attempt < 2 then
          let p := fetchYearGo descs ea (attempt + 1) rest
          (((2 : ℚ) ^ attempt) :: p.1, p.2)
        else ([], [])
      | .connError =>
        if attempt < 2 then
          let p := fetchYearGo descs ea (attempt + 1) rest
          (((2 : ℚ) ^ attempt) :: p.1, p.2)
        else ([], [])

/-- Bulk per-year fetch `fetch_year_all_data` for one year, as a function of
its scripted responses. The year only selects the URL; the fact fields come
from the response records. -/
def fetch_year_all_data (descs : List (String × String)) (ea : String)
    (script : List (HttpOutcome (List ApiRecord))) : List ℚ × List RawFact :=
  fetchYearGo descs ea 0 script

/-- Retryability predicate `_retryable` of `client_gfn.py`: timeouts and
connection errors, plus HTTP 429/500/502/503/504. -/
def retryableStatus (c : Nat) : Bool :=
  c = 429 || c = 500 || c = 502 || c = 503 || c = 504

/-- Wait of tenacity's `wait_exponential(multiplier=1, min=1, max=60)` after
the `attempt`-th attempt (1-based): `clamp(multiplier * 2**(attempt-1), min,
max)`. -/
def tenacityWait (attempt : Nat) : ℚ :=
  max 1 (min ((2 : ℚ) ^ (attempt - 1)) 60)

/-- Attempt loop of `GFNClient.get_json` (client_gfn.py) under tenacity
(`stop_after_attempt(8)`, `wait_exponential(multiplier=1, min=1, max=60)`,
`retry_if_exception(_retryable)`, `reraise=True`), driven by a script of
outcomes. On a 429 the handler first sleeps the parsed `Retry-After` header
when present, then `raise_for_status` raises and tenacity applies its own
exponential wait before the retry. Statuses below 400 succeed; retryable
failures retry while fewer than 8 attempts were made; anything else raises.
Returns the chronological sleeps and the final result. -/
def getJsonGo {β : Type} : Nat → List (HttpOutcome β) → List ℚ × Except Unit β
  | _, [] => ([], .error ())
  | attempt, o :: rest =>
    match o with
    | .status code ra body =>
      let pre : List ℚ := if code = 429 then (match ra with
        | some n => [((n : ℤ) : ℚ)]
        | none => []) else []
      if code < 400 then (pre, .ok body)
      else if retryableStatus code && attempt < 8 then
        let p := getJsonGo (attempt + 1) rest
        (pre ++ tenacityWait attempt :: p.1, p.2)
      else (pre, .error ())
    | .timeout =>
      if attempt < 8 then
        let p := getJsonGo (attempt + 1) rest
        (tenacityWait attempt :: p.1, p.2)
      else ([], .error ())
    | .connError =>
      if attempt < 8 then
        let p := getJsonGo (attempt + 1) rest
        (tenacityWait attempt :: p.1, p.2)
      else ([], .error ())

/-- The retrying client call `GFNClient.get_json`, starting at tenacity
attempt number 1. -/
def get_json {β : Type} (script : List (HttpOutcome β)) : List ℚ × Except Unit β :=
  getJsonGo 1 script

/-- Mapping of one `GET /countries` record in `fetch_countries`
(pipeline_async.py): skip when `countryCode` or `countryName` is falsy or
the code is not numeric, otherwise build the country dictionary. -/
def toCountry (ea : String) (c : ApiCountry) : Option Country :=
  match c.countryName with
  | none => none
  | some nm =>
    if nm = "" then none
    else
      match parse_country_code c.countryCode with
      | none => none
      | some cc =>
        some
          { country_code := some cc
            country_name := some nm
            short_name := c.shortName
            iso_alpha2 := c.isoa2
            version := c.version
            score := c.score
            extracted_at := some ea
            transformed_at := none }

/-- The country-list fetch `fetch_countries` (pipeline_async.py):
`raise_for_status` propagates any status of 400 and above, and timeouts or
connection errors propagate as exceptions; a successful response is mapped
through `toCountry`. -/
def fetch_countries (resp : HttpOutcome (List ApiCountry)) (ea : String) :
    Except Unit (List Country) :=
  match resp with
  | .timeout => .error ()
  | .connError => .error ()
  | .status code _ body =>
    if code < 400 then .ok (body.filterMap (toCountry ea)) else .error ()

/-- The requested year list `list(range(start_year, end_year + 1))`. -/
def yearRange (s e : Int) : List Int :=
  (List.range (e + 1 - s).toNat).map (fun i => s + (i : Int))

/-- Batch slicing `years[i:i + batch_size]` of `fetch_years_parallel`. A
batch size of zero degenerates to singleton batches (the source would never
terminate there; callers pass a positive batch size). -/
def toBatches {α : Type} (n : Nat) : List α → List (List α)
  | [] => []
  | x :: xs => (x :: xs.take (n - 1)) :: toBatches n (xs.drop (n - 1))
termination_by l => l.length
decreasing_by
  simp only [List.length_cons]
  exact Nat.lt_succ_of_le (List.length_drop _ _ ▸ Nat.sub_le _ _)

/-- `fetch_years_parallel` (pipeline_async.py): the year range is processed
in batches; within one batch the per-year fetches are gathered and their
results appended in batch order, so the accumulated record list is the
concatenation of the per-year results in year order. `year_script` scripts
the HTTP outcomes of each year's attempts. -/
def fetch_years_parallel (year_script : Int → List (HttpOutcome (List ApiRecord)))
    (descs : List (String × String)) (ea : String) (years : List Int)
    (batch_size : Nat) : List RawFact :=
  ((toBatches batch_size years).map
    (fun batch => (batch.map (fun y => (fetch_year_all_data descs ea (year_script y)).2)).flatten)).flatten

/-- Record-type filter of `extract_all_data`: `if record_types:` (truthiness
— an empty filter list disables filtering) then keep facts whose
`record_type` value is in the list. -/
def applyFilter (filt : Option (List String)) (l : List RawFact) : List RawFact :=
  match filt with
  | none => l
  | some ts =>
    if ts.isEmpty then l
    else
      l.filter (fun r =>
        match r.record_type with
        | some (some s) => decide (s ∈ ts)
        | _ => false)

/-- Insertion into a sorted list of strings, for `sorted(found_types)`. -/
def insertStr (s : String) : List String → List String
  | [] => [s]
  | x :: xs => if s ≤ x then s :: x :: xs else x :: insertStr s xs

/-- Insertion sort on strings, for `sorted(found_types)`. -/
def sortStrings : List String → List String
  | [] => []
  | x :: xs => insertStr x (sortStrings xs)

/-- The set `{r["record_type"] for r in all_records if r.get("record_type")}`
of `extract_all_data`, sorted: distinct truthy record-type values in first
occurrence order, then sorted. -/
def foundTypes (l : List RawFact) : List String :=
  sortStrings
    ((l.filterMap (fun r =>
      match r.record_type with
      | some (some s) => if s ≠ "" then some s else none
      | _ => none)).eraseDups)

/-- Result dictionary of `extract_all_data`: keys `countries`,
`footprint_data`, `record_types`, `available_types`. -/
structure ExtractResult where
  countries : List Country
  footprint_data : List RawFact
  record_types : List RTEntry
  available_types : List (String × String)
deriving DecidableEq, Repr

/-- The bulk extraction `extract_all_data` (pipeline_async.py). The type
discovery result (`get_available_record_types`, which traps its own errors
and returns an empty mapping on total failure) is the input
`available_types`; an empty mapping raises `ValueError`. The country fetch
raises on failure and propagates. Year fetches never raise: each failed
year contributes an empty list. The optional record-type filter is applied
after fetching, and the record types actually observed are returned sorted
with their discovered descriptions. -/
def extract_all_data (available_types : List (String × String))
    (countries_resp : HttpOutcome (List ApiCountry))
    (year_script : Int → List (HttpOutcome (List ApiRecord)))
    (start_year end_year : Int) (record_types_filter : Option (List String))
    (batch_size : Nat) (ea : String) : Except Unit ExtractResult :=
  if available_types.isEmpty then .error ()
  else
    match fetch_countries countries_resp ea with
    | .error e => .error e
    | .ok countries =>
      let years := yearRange start_year end_year
      let all_records :=
        applyFilter record_types_filter
          (fetch_years_parallel year_script available_types ea years batch_size)
      .ok
        { countries := countries
          footprint_data := all_records
          record_types :=
            (foundTypes all_records).map
              (fun rt => ⟨rt, (available_types.lookup rt).getD rt⟩)
          available_types := available_types }

/-- Facts of a successful extraction, `none` when the extraction raised. -/
def extractFactsOpt (r : Except Unit ExtractResult) : Option (List RawFact) :=
  match r with
  | .ok d => some d.footprint_data
  | .error _ => none

section DedupLemmas

variable {α K : Type} [DecidableEq K] {key : α → Option K} {enrich : α → α}

theorem dedupFirst_cons_invalid (seen : List K) (r : α) (l : List α)
    (h : key r = none) :
    dedupFirst key enrich seen (r :: l) = dedupFirst key enrich seen l := by
  simp [dedupFirst, h]

theorem dedupFirst_cons_seen (seen : List K) (r : α) (l : List α) (k : K)
    (hk : key r = some k) (hmem : k ∈ seen) :
    dedupFirst key enrich seen (r :: l) = dedupFirst key enrich seen l := by
  simp [dedupFirst, hk, hmem]

theorem dedupFirst_cons_new (seen : List K) (r : α) (l : List α) (k : K)
    (hk : key r = some k) (hmem : k ∉ seen) :
    dedupFirst key enrich seen (r :: l) =
      enrich r :: dedupFirst key enrich (k :: seen) l := by
  simp [dedupFirst, hk, hmem]

/-- Every record surviving the dedup loop is the enrichment of the first
input record bearing its (valid, fresh) key. -/
theorem dedupFirst_mem : ∀ (seen : List K) (l : List α) (f : α),
    f ∈ dedupFirst key enrich seen l →
    ∃ r k, key r = some k ∧ k ∉ seen ∧ f = enrich r ∧
      l.find? (fun x => decide (key x = some k)) = some r := by
  intro seen l
  induction l generalizing seen with
  | nil => intro f h; simp [dedupFirst] at h
  | cons r₀ rest ih =>
    intro f h
    cases hk₀ : key r₀ with
    | none =>
      rw [dedupFirst_cons_invalid _ _ _ hk₀] at h
      obtain ⟨r, k, h1, h2, h3, h4⟩ := ih seen f h
      refine ⟨r, k, h1, h2, h3, ?_⟩
      rw [List.find?_cons_of_neg, h4]
      simp [hk₀]
    | some k₀ =>
      by_cases hmem : k₀ ∈ seen
      · rw [dedupFirst_cons_seen _ _ _ _ hk₀ hmem] at h
        obtain ⟨r, k, h1, h2, h3, h4⟩ := ih seen f h
        have hne : k₀ ≠ k := fun he => h2 (he ▸ hmem)
        refine ⟨r, k, h1, h2, h3, ?_⟩
        rw [List.find?_cons_of_neg, h4]
        simp [hk₀, hne]
      · rw [dedupFirst_cons_new _ _ _ _ hk₀ hmem] at h
        rcases List.mem_cons.mp h with he | hmem2
        · refine ⟨r₀, k₀, hk₀, hmem, he, ?_⟩
          rw [List.find?_cons_of_pos]
          simp [hk₀]
        · obtain ⟨r, k, h1, h2, h3, h4⟩ := ih (k₀ :: seen) f hmem2
          have hne : k₀ ≠ k := fun he => h2 (he ▸ List.mem_cons_self _ _)
          have h2' : k ∉ seen := fun hs => h2 (List.mem_cons_of_mem _ hs)
          refine ⟨r, k, h1, h2', h3, ?_⟩
          rw [List.find?_cons_of_neg, h4]
          simp [hk₀, hne]

/-- When enrichment preserves keys, the surviving keys are distinct and
fresh with respect to the seen set. -/
theorem dedupFirst_keys (hk : ∀ r, key (enrich r) = key r) :
    ∀ (seen : List K) (l : List α),
      ((dedupFirst key enrich seen l).filterMap key).Nodup ∧
      ∀ k ∈ (dedupFirst key enrich seen l).filterMap key, k ∉ seen := by
  intro seen l
  induction l generalizing seen with
  | nil => simp [dedupFirst]
  | cons r₀ rest ih =>
    cases hk₀ : key r₀ with
    | none => rw [dedupFirst_cons_invalid _ _ _ hk₀]; exact ih seen
    | some k₀ =>
      by_cases hmem : k₀ ∈ seen
      · rw [dedupFirst_cons_seen _ _ _ _ hk₀ hmem]; exact ih seen
      · rw [dedupFirst_cons_new _ _ _ _ hk₀ hmem]
        obtain ⟨ihn, ihf⟩ := ih (k₀ :: seen)
        rw [List.filterMap_cons_some ((hk r₀).trans hk₀)]
        constructor
        · exact List.nodup_cons.mpr
            ⟨fun hm => (ihf k₀ hm) (List.mem_cons_self _ _), ihn⟩
        · intro k hkm
          rcases List.mem_cons.mp hkm with he | hm
          · exact he ▸ hmem
          · exact fun hs => (ihf k hm) (List.mem_cons_of_mem _ hs)

/-- On an input whose records all carry valid, fresh, pairwise-distinct
keys, the dedup loop keeps everything: it is exactly `map enrich`. -/
theorem dedupFirst_eq_map : ∀ (seen : List K) (l : List α),
    (∀ r ∈ l, ∃ k, key r = some k ∧ k ∉ seen) →
    (l.filterMap key).Nodup →
    dedupFirst key enrich seen l = l.map enrich := by
  intro seen l
  induction l generalizing seen with
  | nil => intro _ _; rfl
  | cons r₀ rest ih =>
    intro hvalid hnodup
    obtain ⟨k₀, hk₀, hfresh⟩ := hvalid r₀ (List.mem_cons_self _ _)
    rw [List.filterMap_cons_some hk₀, List.nodup_cons] at hnodup
    rw [dedupFirst_cons_new _ _ _ _ hk₀ hfresh, List.map_cons]
    congr 1
    refine ih (k₀ :: seen) ?_ hnodup.2
    intro r hr
    obtain ⟨k, hkr, hkfresh⟩ := hvalid r (List.mem_cons_of_mem _ hr)
    refine ⟨k, hkr, ?_⟩
    intro hm
    rcases List.mem_cons.mp hm with he | hs
    · exact hnodup.1 (he ▸ List.mem_filterMap.mpr ⟨r, hr, hkr⟩)
    · exact hkfresh hs

/-- Every valid fresh input key survives dedup. -/
theorem dedupFirst_complete (hk : ∀ r, key (enrich r) = key r) :
    ∀ (seen : List K) (l : List α) (r : α) (k : K),
      r ∈ l → key r = some k → k ∉ seen →
      k ∈ (dedupFirst key enrich seen l).filterMap key := by
  intro seen l
  induction l generalizing seen with
  | nil => intro r k hr; simp at hr
  | cons r₀ rest ih =>
    intro r k hr hkr hfresh
    cases hk₀ : key r₀ with
    | none =>
      rw [dedupFirst_cons_invalid _ _ _ hk₀]
      rcases List.mem_cons.mp hr with he | hm
      · rw [he, hk₀] at hkr; exact absurd hkr (by simp)
      · exact ih seen r k hm hkr hfresh
    | some k₀ =>
      by_cases hmem : k₀ ∈ seen
      · rw [dedupFirst_cons_seen _ _ _ _ hk₀ hmem]
        rcases List.mem_cons.mp hr with he | hm
        · rw [he, hk₀] at hkr
          exact absurd hfresh (by simp at hkr; exact hkr ▸ not_not.mpr hmem)
        · exact ih seen r k hm hkr hfresh
      · rw [dedupFirst_cons_new _ _ _ _ hk₀ hmem,
          List.filterMap_cons_some ((hk r₀).trans hk₀)]
        by_cases hkk : k = k₀
        · exact hkk ▸ List.mem_cons_self _ _
        · rcases List.mem_cons.mp hr with he | hm
          · rw [he, hk₀] at hkr; simp at hkr; exact absurd hkr.symm hkk
          · exact List.mem_cons_of_mem _
              (ih (k₀ :: seen) r k hm hkr
                (fun hs => (List.mem_cons.mp hs).elim (fun h => hkk h) hfresh))

end DedupLemmas

theorem fact_key_stamp (ts : String) (r : RawFact) :
    fact_key (stamp_fact ts r) = fact_key r := rfl

theorem handler_key_enrich (ts : String) (r : RawFact) :
    handler_key (handler_enrich ts r) = handler_key r := rfl

theorem country_key_stamp (ts : String) (c : Country) :
    country_key (stamp_country ts c) = country_key c := rfl

theorem erase_stamp_stamp (ts : String) (r : RawFact) :
    erase_stamp (stamp_fact ts r) = erase_stamp r := rfl

/-- C3: the claim as stated fails on the code: the guard
`if last_year and last_year >= requested_start` tests Python truthiness, so
a persisted watermark of `0` is treated as absent. With
`last_year_processed = 0 >= requested_start = -5` the code returns the
requested window `(-5, E)`, not `(max(0-1, -5), E) = (-1, E)`. -/
theorem C3_counterexample :
    calculate_incremental_range (some 0) (-5) 2024 false = (-5, 2024) ∧
    (max ((0 : Int) - 1) (-5), (2024 : Int)) = (-1, 2024) ∧
    ((-5 : Int), (2024 : Int)) ≠ ((-1 : Int), (2024 : Int)) := by
  decide

/-- C3 (amended): for every requested window `[S, E]`: `next_window` with
`force_full = true` returns `(S, E)` regardless of state; with no prior
`last_year_processed`, or `last_year_processed < S`, it returns `(S, E)`
unchanged; with `last_year_processed = Y >= S` and `Y` nonzero it returns
`(max(Y-1, S), E)` (a persisted watermark of `0` is falsy and treated as
absent); and the returned end is always the requested end `E`. -/
theorem C3_incremental_window (S E : Int) (st : Option Int) (Y : Int) :
    calculate_incremental_range st S E true = (S, E) ∧
    calculate_incremental_range none S E false = (S, E) ∧
    (Y < S → calculate_incremental_range (some Y) S E false = (S, E)) ∧
    (S ≤ Y → Y ≠ 0 → calculate_incremental_range (some Y) S E false = (max (Y - 1) S, E)) ∧
    (calculate_incremental_range st S E false).2 = E ∧
    (calculate_incremental_range st S E true).2 = E := by
  refine ⟨rfl, rfl, ?_, ?_, ?_, rfl⟩
  · intro h
    simp only [calculate_incremental_range, Bool.false_eq_true, if_false]
    rw [if_neg (by omega)]
  · intro hSY hY0
    simp only [calculate_incremental_range, Bool.false_eq_true, if_false]
    rw [if_pos ⟨hY0, hSY⟩]
  · cases st with
    | none => rfl
    | some y =>
      simp only [calculate_incremental_range, Bool.false_eq_true, if_false]
      split <;> rfl

/-- C3 witness: the amended implications at concrete inputs. -/
theorem C3_incremental_window_witness :
    ((2019 : Int) < 2020 →
      calculate_incremental_range (some 2019) 2020 2024 false = (2020, 2024)) ∧
    ((2020 : Int) ≤ 2022 → (2022 : Int) ≠ 0 →
      calculate_incremental_range (some 2022) 2020 2024 false =
        (max (2022 - 1) 2020, 2024)) :=
  ⟨fun h => (C3_incremental_window 2020 2024 (some 2019) 2019).2.2.1 h,
   fun h h' => (C3_incremental_window 2020 2024 (some 2022) 2022).2.2.2.1 h h'⟩

theorem acquireStep_zero_elapsed (R Bq x t : ℚ) (h1 : 1 ≤ x) (h2 : x ≤ Bq) :
    acquireStep R Bq ⟨x, t⟩ t = (0, ⟨x - 1, t⟩) := by
  simp only [acquireStep, sub_self, zero_mul, add_zero, min_eq_right h2, if_pos h1]

theorem acquireRun_zero_elapsed (R Bq t : ℚ) :
    ∀ (n : ℕ) (x : ℚ), (n : ℚ) ≤ x → x ≤ Bq →
      acquireRun R Bq ⟨x, t⟩ t n = (List.replicate n 0, ⟨x - n, t⟩) := by
  intro n
  induction n with
  | zero => intro x _ _; simp [acquireRun]
  | succ n ih =>
    intro x hn hB
    have hcast : ((n : ℚ)) + 1 ≤ x := by push_cast at hn; linarith
    have h1 : (1 : ℚ) ≤ x := by
      have : (0 : ℚ) ≤ (n : ℚ) := Nat.cast_nonneg n
      linarith
    rw [acquireRun]
    simp only [acquireStep_zero_elapsed R Bq x t h1 hB]
    rw [ih (x - 1) (by linarith) (by linarith)]
    refine Prod.ext ?_ ?_
    · simp [List.replicate_succ]
    · simp only []
      congr 1
      push_cast
      ring

theorem acquireRun_add (R Bq t : ℚ) : ∀ (m n : ℕ) (s : BucketState),
    acquireRun R Bq s t (m + n) =
      ((acquireRun R Bq s t m).1 ++ (acquireRun R Bq (acquireRun R Bq s t m).2 t n).1,
       (acquireRun R Bq (acquireRun R Bq s t m).2 t n).2) := by
  intro m
  induction m with
  | zero => intro n s; simp [acquireRun]
  | succ m ih =>
    intro n s
    have hmn : m + 1 + n = (m + n) + 1 := by omega
    rw [hmn, acquireRun, acquireRun]
    simp [ih]

/-- C8 (confirmed): `acquire` follows the token-bucket algorithm — on each
call it replenishes `tokens` to `min(burst, tokens + elapsed*rate)` and
updates the refill time; with at least one token it consumes one and returns
with zero wait, otherwise it waits `(1 - tokens)/rate` and zeroes the
count. Consequently, from a full bucket with `burst = B ≥ 1` and
`rate = R > 0`, the first `B` calls complete with zero wait and the
`(B+1)`-th waits exactly `1/R`. -/
theorem C8_rate_limiter (R : ℚ) (B : ℕ) (t : ℚ) (hR : 0 < R) (hB : 1 ≤ B) :
    (∀ (s : BucketState) (now : ℚ),
      1 ≤ min (B : ℚ) (s.tokens + (now - s.last_update) * R) →
      acquireStep R B s now =
        (0, ⟨min (B : ℚ) (s.tokens + (now - s.last_update) * R) - 1, now⟩)) ∧
    (∀ (s : BucketState) (now : ℚ),
      ¬ 1 ≤ min (B : ℚ) (s.tokens + (now - s.last_update) * R) →
      acquireStep R B s now =
        ((1 - min (B : ℚ) (s.tokens + (now - s.last_update) * R)) / R, ⟨0, now⟩)) ∧
    (acquireRun R B ⟨(B : ℚ), t⟩ t B).1 = List.replicate B 0 ∧
    (acquireRun R B ⟨(B : ℚ), t⟩ t (B + 1)).1 = List.replicate B 0 ++ [1 / R] := by
  have hB0 : (0 : ℚ) ≤ (B : ℚ) := Nat.cast_nonneg B
  have hrun : acquireRun R B ⟨(B : ℚ), t⟩ t B = (List.replicate B 0, ⟨0, t⟩) := by
    have := acquireRun_zero_elapsed R B t B (B : ℚ) le_rfl le_rfl
    rwa [sub_self] at this
  refine ⟨?_, ?_, ?_, ?_⟩
  · intro s now h; simp only [acquireStep, if_pos h]
  · intro s now h; simp only [acquireStep, if_neg h]
  · rw [hrun]
  · rw [acquireRun_add R B t B 1, hrun]
    have hstep : acquireStep R B ⟨0, t⟩ t = (1 / R, ⟨0, t⟩) := by
      simp only [acquireStep, sub_self, zero_mul, add_zero, min_eq_right hB0]
      rw [if_neg (by norm_num), sub_zero]
    simp [acquireRun, hstep]

/-- C8 witness: with the source defaults `rate = 2`, `burst = 5`, the
hypotheses hold and the first five acquisitions wait zero while the sixth
waits `1/2`. -/
theorem C8_rate_limiter_witness :
    (0 : ℚ) < 2 ∧ 1 ≤ 5 ∧
    (acquireRun 2 5 ⟨(5 : ℚ), 0⟩ 0 5).1 = List.replicate 5 0 ∧
    (acquireRun 2 5 ⟨(5 : ℚ), 0⟩ 0 6).1 = List.replicate 5 0 ++ [1 / 2] :=
  ⟨by norm_num, by norm_num,
   (C8_rate_limiter 2 5 0 (by norm_num) (by norm_num)).2.2.1,
   (C8_rate_limiter 2 5 0 (by norm_num) (by norm_num)).2.2.2⟩

/-- Test fixture: a fact with the given key fields, metric values and
derived field; every other field absent. -/
def mkFact (cc y : Option Int) (rt : Option (Option String)) (c v : Option ℚ)
    (pct : Option (Option ℚ)) : RawFact :=
  { country_code := cc, country_name := none, short_name := none,
    iso_alpha2 := none, year := y, record_type := rt,
    record_type_description := none, crop_land := none, grazing_land := none,
    forest_land := none, fishing_ground := none, builtup_land := none,
    carbon := c, value := v, score := none, extracted_at := none,
    transformed_at := none, carbon_pct_of_total := pct }

/-- Test fixture: a country with the given code, every other field absent. -/
def mkCountry (cc : Option Int) : Country :=
  { country_code := cc, country_name := none, short_name := none,
    iso_alpha2 := none, version := none, score := none, extracted_at := none,
    transformed_at := none }

theorem fact_key_eq_none_of (r : RawFact)
    (h : r.country_code = some 0 ∨ r.country_code = none ∨
      r.year = some 0 ∨ r.year = none ∨
      r.record_type = some (some "") ∨ r.record_type = none) :
    fact_key r = none := by
  unfold fact_key
  rcases hc : r.country_code with _ | cc
  · rfl
  · rcases hy : r.year with _ | y
    · rfl
    · rcases hrt : r.record_type with _ | (_ | s)
      · rfl
      · rfl
      · show (if cc ≠ 0 ∧ y ≠ 0 ∧ s ≠ "" then some (cc, y, s) else none) = none
        rw [if_neg]
        rcases h with h | h | h | h | h | h
        · rw [hc] at h; simp at h; subst h; simp
        · rw [hc] at h; simp at h
        · rw [hy] at h; simp at h; subst h; simp
        · rw [hy] at h; simp at h
        · rw [hrt] at h; simp at h; subst h; simp
        · rw [hrt] at h; simp at h

theorem handler_key_eq_none_of (r : RawFact)
    (h : r.country_code = some 0 ∨ r.country_code = none ∨
      r.year = some 0 ∨ r.year = none) :
    handler_key r = none := by
  unfold handler_key
  rcases hc : r.country_code with _ | cc
  · rfl
  · rcases hy : r.year with _ | y
    · rfl
    · show (if cc ≠ 0 ∧ y ≠ 0 then some (cc, y, handlerRT r) else none) = none
      rw [if_neg]
      rcases h with h | h | h | h
      · rw [hc] at h; simp at h; subst h; simp
      · rw [hc] at h; simp at h
      · rw [hy] at h; simp at h; subst h; simp
      · rw [hy] at h; simp at h

theorem country_key_eq_none_of (c : Country)
    (h : c.country_code = some 0 ∨ c.country_code = none) :
    country_key c = none := by
  unfold country_key
  rcases hc : c.country_code with _ | cc
  · rfl
  · show (if cc ≠ 0 then some cc else none) = none
    rw [if_neg]
    rcases h with h | h
    · rw [hc] at h; simp at h; subst h; simp
    · rw [hc] at h; simp at h

/-- C9 (confirmed): `_transform` is idempotent on facts — re-transforming
its own output re-stamps every record and changes nothing else: no record
is dropped, duplicated, or gains or loses fields, and modulo the
`transformed_at` stamp the fact set is identical. -/
theorem C9_transform_idempotent (d : GfnData) (ts1 ts2 : String) :
    (main_transform (main_transform d ts1) ts2).footprint_data
      = ((main_transform d ts1).footprint_data).map (stamp_fact ts2) ∧
    ((main_transform (main_transform d ts1) ts2).footprint_data).map erase_stamp
      = ((main_transform d ts1).footprint_data).map erase_stamp := by
  have hmain :
      main_transform_facts ts2 (main_transform_facts ts1 d.footprint_data)
        = (main_transform_facts ts1 d.footprint_data).map (stamp_fact ts2) := by
    apply dedupFirst_eq_map
    · intro r hr
      obtain ⟨r₀, k, hk₀, _, hre, _⟩ := dedupFirst_mem [] d.footprint_data r hr
      exact ⟨k, by rw [hre, fact_key_stamp, hk₀], by simp⟩
    · exact (dedupFirst_keys (fact_key_stamp ts1) [] d.footprint_data).1
  refine ⟨hmain, ?_⟩
  show (main_transform_facts ts2 (main_transform_facts ts1 d.footprint_data)).map erase_stamp = _
  rw [hmain, List.map_map]
  exact List.map_congr_left (fun f _ => erase_stamp_stamp ts2 f)

/-- C10 (confirmed): required-field validation is a truthiness test, not a
presence test. A fact whose `country_code` or `year` is present but `0`, or
(for the dlt runner) whose `record_type` is the empty string, is skipped by
the transform exactly as when the field is missing; a country record with
`country_code` `0` is likewise dropped. -/
theorem C10_truthiness (ts : String) (r : RawFact) (l : List RawFact)
    (c : Country) (cl : List Country) :
    (r.country_code = some 0 →
      main_transform_facts ts (r :: l) = main_transform_facts ts l ∧
      handler_transform_facts ts (r :: l) = handler_transform_facts ts l) ∧
    (r.country_code = none →
      main_transform_facts ts (r :: l) = main_transform_facts ts l ∧
      handler_transform_facts ts (r :: l) = handler_transform_facts ts l) ∧
    (r.year = some 0 →
      main_transform_facts ts (r :: l) = main_transform_facts ts l ∧
      handler_transform_facts ts (r :: l) = handler_transform_facts ts l) ∧
    (r.year = none →
      main_transform_facts ts (r :: l) = main_transform_facts ts l ∧
      handler_transform_facts ts (r :: l) = handler_transform_facts ts l) ∧
    (r.record_type = some (some "") →
      main_transform_facts ts (r :: l) = main_transform_facts ts l) ∧
    (r.record_type = none →
      main_transform_facts ts (r :: l) = main_transform_facts ts l) ∧
    (c.country_code = some 0 →
      main_transform_countries ts (c :: cl) = main_transform_countries ts cl) ∧
    (c.country_code = none →
      main_transform_countries ts (c :: cl) = main_transform_countries ts cl) := by
  refine ⟨?_, ?_, ?_, ?_, ?_, ?_, ?_, ?_⟩
  · intro h
    exact ⟨dedupFirst_cons_invalid _ _ _ (fact_key_eq_none_of r (by tauto)),
           dedupFirst_cons_invalid _ _ _ (handler_key_eq_none_of r (by tauto))⟩
  · intro h
    exact ⟨dedupFirst_cons_invalid _ _ _ (fact_key_eq_none_of r (by tauto)),
           dedupFirst_cons_invalid _ _ _ (handler_key_eq_none_of r (by tauto))⟩
  · intro h
    exact ⟨dedupFirst_cons_invalid _ _ _ (fact_key_eq_none_of r (by tauto)),
           dedupFirst_cons_invalid _ _ _ (handler_key_eq_none_of r (by tauto))⟩
  · intro h
    exact ⟨dedupFirst_cons_invalid _ _ _ (fact_key_eq_none_of r (by tauto)),
           dedupFirst_cons_invalid _ _ _ (handler_key_eq_none_of r (by tauto))⟩
  · intro h
    exact dedupFirst_cons_invalid _ _ _ (fact_key_eq_none_of r (by tauto))
  · intro h
    exact dedupFirst_cons_invalid _ _ _ (fact_key_eq_none_of r (by tauto))
  · intro h
    exact dedupFirst_cons_invalid _ _ _ (country_key_eq_none_of c (by tauto))
  · intro h
    exact dedupFirst_cons_invalid _ _ _ (country_key_eq_none_of c (by tauto))

/-- C10 witness: zero-valued and empty-string required fields at concrete
inputs are dropped like missing ones. -/
theorem C10_truthiness_witness :
    (main_transform_facts "t" [mkFact (some 0) (some 2020) (some (some "EFtot")) none none none] =
      main_transform_facts "t" [] ∧
     handler_transform_facts "t" [mkFact (some 0) (some 2020) (some (some "EFtot")) none none none] =
      handler_transform_facts "t" []) ∧
    (main_transform_facts "t" [mkFact (some 1) (some 0) (some (some "EFtot")) none none none] =
      main_transform_facts "t" [] ∧
     handler_transform_facts "t" [mkFact (some 1) (some 0) (some (some "EFtot")) none none none] =
      handler_transform_facts "t" []) ∧
    main_transform_facts "t" [mkFact (some 1) (some 2020) (some (some "")) none none none] =
      main_transform_facts "t" [] ∧
    main_transform_countries "t" [mkCountry (some 0)] = main_transform_countries "t" [] :=
  ⟨(C10_truthiness "t" (mkFact (some 0) (some 2020) (some (some "EFtot")) none none none)
      [] (mkCountry (some 0)) []).1 rfl,
   (C10_truthiness "t" (mkFact (some 1) (some 0) (some (some "EFtot")) none none none)
      [] (mkCountry (some 0)) []).2.2.1 rfl,
   (C10_truthiness "t" (mkFact (some 1) (some 2020) (some (some "")) none none none)
      [] (mkCountry (some 0)) []).2.2.2.2.1 rfl,
   (C10_truthiness "t" (mkFact (some 1) (some 2020) (some (some "")) none none none)
      [] (mkCountry (some 0)) []).2.2.2.2.2.2.1 rfl⟩

/-- C1: the claim as stated fails on the lambda transform: a record with a
truthy country code and year but NO record type is not dropped by
`handler_transform` — it survives (with dedup key component defaulting to
`"unknown"`), while the dlt runner's `_transform` does drop it. -/
theorem C1_counterexample :
    handler_transform_facts "t" [mkFact (some 1) (some 2020) none none none none] =
      [handler_enrich "t" (mkFact (some 1) (some 2020) none none none none)] ∧
    handler_transform_facts "t" [mkFact (some 1) (some 2020) none none none none] ≠ [] ∧
    main_transform_facts "t" [mkFact (some 1) (some 2020) none none none none] = [] := by
  decide

/-- C1 (amended): for the dlt runner's `_transform` the claim holds as
stated: no two output facts share a `(country_code, year, record_type)`
key, every input record lacking (truthy) country code, year or record type
is dropped, and each surviving record is the stamped first occurrence of
its key in input order. For the lambda `handler_transform`, only country
code and year are required: records lacking a record type survive, and
deduplication keys use the record's `record_type` value with an absent key
mapped to `"unknown"`, again keeping the first occurrence. -/
theorem C1_transform_dedup (ts : String) (l : List RawFact) :
    ((main_transform_facts ts l).filterMap fact_key).Nodup ∧
    (∀ f ∈ main_transform_facts ts l, ∃ k r, fact_key f = some k ∧
      l.find? (fun x => decide (fact_key x = some k)) = some r ∧
      f = stamp_fact ts r) ∧
    (∀ r ∈ l, ∀ k, fact_key r = some k →
      k ∈ (main_transform_facts ts l).filterMap fact_key) ∧
    ((handler_transform_facts ts l).filterMap handler_key).Nodup ∧
    (∀ f ∈ handler_transform_facts ts l, ∃ k r, handler_key f = some k ∧
      l.find? (fun x => decide (handler_key x = some k)) = some r ∧
      f = handler_enrich ts r) ∧
    (∀ r ∈ l, ∀ k, handler_key r = some k →
      k ∈ (handler_transform_facts ts l).filterMap handler_key) := by
  refine ⟨(dedupFirst_keys (fact_key_stamp ts) [] l).1, ?_, ?_,
          (dedupFirst_keys (handler_key_enrich ts) [] l).1, ?_, ?_⟩
  · intro f hf
    obtain ⟨r, k, h1, _, h3, h4⟩ := dedupFirst_mem [] l f hf
    exact ⟨k, r, by rw [h3, fact_key_stamp, h1], h4, h3⟩
  · intro r hr k hk
    exact dedupFirst_complete (fact_key_stamp ts) [] l r k hr hk (by simp)
  · intro f hf
    obtain ⟨r, k, h1, _, h3, h4⟩ := dedupFirst_mem [] l f hf
    exact ⟨k, r, by rw [h3, handler_key_enrich, h1], h4, h3⟩
  · intro r hr k hk
    exact dedupFirst_complete (handler_key_enrich ts) [] l r k hr hk (by simp)

/-- C1 witness: the duplicate-key scenario — two facts with key
`(1, 2020, "EFtot")` and different values — instantiating the amended
theorem's membership and first-occurrence conclusions. -/
theorem C1_transform_dedup_witness :
    (∃ k r, fact_key (stamp_fact "t" (mkFact (some 1) (some 2020)
        (some (some "EFtot")) none (some 1) none)) = some k ∧
      [mkFact (some 1) (some 2020) (some (some "EFtot")) none (some 1) none,
       mkFact (some 1) (some 2020) (some (some "EFtot")) none (some 2) none].find?
        (fun x => decide (fact_key x = some k)) = some r ∧
      stamp_fact "t" (mkFact (some 1) (some 2020) (some (some "EFtot")) none (some 1) none)
        = stamp_fact "t" r) ∧
    ((1 : Int), (2020 : Int), "EFtot") ∈
      (main_transform_facts "t"
        [mkFact (some 1) (some 2020) (some (some "EFtot")) none (some 1) none,
         mkFact (some 1) (some 2020) (some (some "EFtot")) none (some 2) none]).filterMap
        fact_key ∧
    (∃ k r, handler_key (handler_enrich "t" (mkFact (some 1) (some 2020)
        (some (some "EFtot")) none (some 1) none)) = some k ∧
      [mkFact (some 1) (some 2020) (some (some "EFtot")) none (some 1) none,
       mkFact (some 1) (some 2020) (some (some "EFtot")) none (some 2) none].find?
        (fun x => decide (handler_key x = some k)) = some r ∧
      handler_enrich "t" (mkFact (some 1) (some 2020) (some (some "EFtot")) none (some 1) none)
        = handler_enrich "t" r) :=
  ⟨(C1_transform_dedup "t"
      [mkFact (some 1) (some 2020) (some (some "EFtot")) none (some 1) none,
       mkFact (some 1) (some 2020) (some (some "EFtot")) none (some 2) none]).2.1
      _ (by decide),
   (C1_transform_dedup "t"
      [mkFact (some 1) (some 2020) (some (some "EFtot")) none (some 1) none,
       mkFact (some 1) (some 2020) (some (some "EFtot")) none (some 2) none]).2.2.1
      (mkFact (some 1) (some 2020) (some (some "EFtot")) none (some 1) none)
      (by decide) ((1 : Int), (2020 : Int), "EFtot") (by decide),
   (C1_transform_dedup "t"
      [mkFact (some 1) (some 2020) (some (some "EFtot")) none (some 1) none,
       mkFact (some 1) (some 2020) (some (some "EFtot")) none (some 2) none]).2.2.2.2.1
      _ (by decide)⟩

theorem computePct_eq_none (c v : Option ℚ) :
    computePct c v = none ↔
      c = none ∨ v = none ∨ ∃ x, v = some x ∧ x ≤ 0 := by
  cases c with
  | none => simp [computePct]
  | some cx =>
    cases v with
    | none => simp [computePct]
    | some vx =>
      simp only [computePct, reduceCtorEq, false_or, Option.some.injEq]
      by_cases h : vx ≠ 0 ∧ 0 < vx
      · rw [if_pos h]
        simp only [reduceCtorEq, false_iff, not_exists, not_and]
        intro x hx
        subst hx
        linarith [h.2]
      · rw [if_neg h]
        simp only [true_iff]
        push_neg at h
        refine ⟨vx, rfl, ?_⟩
        by_cases h0 : vx = 0
        · exact le_of_eq h0
        · exact h h0

/-- C2: the claim as stated fails on the dlt runner: `_transform`
(main.py) does not compute `carbon_pct_of_total` at all. A fact with
`carbon = 50` and `value = 100 > 0` comes out of the transform with no
derived percentage, instead of `round(50/100*100, 2)`. -/
theorem C2_counterexample :
    ((main_transform ⟨[], [mkFact (some 1) (some 2020) (some (some "EFCtot"))
        (some 50) (some 100) none], []⟩ "t").footprint_data.map
      (fun f => f.carbon_pct_of_total)) = [none] ∧
    (some (50 : ℚ) ≠ none) ∧ ((0 : ℚ) < 100) ∧
    ([(none : Option (Option ℚ))] ≠ [some (some (round2 (50 / 100 * 100)))]) := by
  decide

/-- C2 (amended): the derived-field invariant holds for the lambda
`handler_transform`: every output fact carries `carbon_pct_of_total`, which
is `null` iff `carbon` is `null`, `value` is `null`, or `value ≤ 0`, and
equals `round(carbon/value*100, 2)` otherwise. The dlt runner's
`_transform` does not compute the field: each of its output facts carries
the `carbon_pct_of_total` of its source record unchanged. -/
theorem C2_derived_field (ts : String) (l : List RawFact) :
    (∀ f ∈ handler_transform_facts ts l,
      f.carbon_pct_of_total = some (computePct f.carbon f.value) ∧
      (computePct f.carbon f.value = none ↔
        f.carbon = none ∨ f.value = none ∨ ∃ v, f.value = some v ∧ v ≤ 0) ∧
      (∀ c v, f.carbon = some c → f.value = some v → 0 < v →
        f.carbon_pct_of_total = some (some (round2 (c / v * 100))))) ∧
    (∀ f ∈ main_transform_facts ts l, ∃ r, r ∈ l ∧
      f.carbon_pct_of_total = r.carbon_pct_of_total) := by
  constructor
  · intro f hf
    obtain ⟨r, k, _, _, h3, _⟩ := dedupFirst_mem [] l f hf
    subst h3
    refine ⟨rfl, computePct_eq_none _ _, ?_⟩
    intro c v hc hv hv0
    have hc' : r.carbon = some c := hc
    have hv' : r.value = some v := hv
    show some (computePct r.carbon r.value) = some (some (round2 (c / v * 100)))
    rw [hc', hv']
    simp only [computePct]
    rw [if_pos (show v ≠ 0 ∧ 0 < v from ⟨hv0.ne', hv0⟩)]
  · intro f hf
    obtain ⟨r, k, _, _, h3, h4⟩ := dedupFirst_mem [] l f hf
    exact ⟨r, List.mem_of_find?_eq_some h4, by subst h3; rfl⟩

/-- C2 witness: the amended theorem instantiated at a singleton batch with
`carbon = 50`, `value = 100`. -/
theorem C2_derived_field_witness :
    (handler_enrich "t" (mkFact (some 1) (some 2020) (some (some "EFCtot"))
        (some 50) (some 100) none)).carbon_pct_of_total =
      some (computePct
        (handler_enrich "t" (mkFact (some 1) (some 2020) (some (some "EFCtot"))
          (some 50) (some 100) none)).carbon
        (handler_enrich "t" (mkFact (some 1) (some 2020) (some (some "EFCtot"))
          (some 50) (some 100) none)).value) ∧
    (∃ r, r ∈ [mkFact (some 1) (some 2020) (some (some "EFCtot"))
        (some 50) (some 100) none] ∧
      (stamp_fact "t" (mkFact (some 1) (some 2020) (some (some "EFCtot"))
        (some 50) (some 100) none)).carbon_pct_of_total = r.carbon_pct_of_total) :=
  ⟨((C2_derived_field "t" [mkFact (some 1) (some 2020) (some (some "EFCtot"))
      (some 50) (some 100) none]).1
      (handler_enrich "t" (mkFact (some 1) (some 2020) (some (some "EFCtot"))
        (some 50) (some 100) none)) (List.mem_singleton_self _)).1,
   (C2_derived_field "t" [mkFact (some 1) (some 2020) (some (some "EFCtot"))
      (some 50) (some 100) none]).2
      (stamp_fact "t" (mkFact (some 1) (some 2020) (some (some "EFCtot"))
        (some 50) (some 100) none)) (List.mem_singleton_self _)⟩

/-- C4: the claim as stated fails on one configuration: with Soda checks
enabled in warn-only mode, a run whose quality checks FAIL still proceeds to
load and, on load success, advances the watermark. Here: pre-state `none`,
checks failed (`soda_passed = false`), `warn_only = true`, load ok — the run
ends `"success"` with the watermark written to `actual_end = 2022`. -/
theorem C4_counterexample :
    (runModel none 2020 2022 false
      (.ok ⟨[], [mkFact (some 1) (some 2020) (some (some "EFtot")) none none none], []⟩)
      true false true [.ok ()]).status = "success" ∧
    (runModel none 2020 2022 false
      (.ok ⟨[], [mkFact (some 1) (some 2020) (some (some "EFtot")) none none none], []⟩)
      true false true [.ok ()]).last_year = some 2022 ∧
    some (2022 : Int) ≠ (none : Option Int) := by
  decide

/-- C4 (amended): the watermark is written, to the value `actual_end`, only
when the run ends `"success"`, which requires the extraction to have
succeeded, every load to have succeeded, and the quality gate to have not
hard-failed; on a failed extraction, a failed load, or a quality-check
failure NOT configured warn-only, the run ends with the watermark unchanged
(a warn-only quality failure does not abort the run, so the watermark may
still advance). -/
theorem C4_watermark (pre : Option Int) (s e : Int) (ff : Bool)
    (ext : Except Unit GfnData) (sodaE sodaP warn : Bool)
    (loads : List (Except Unit Unit)) :
    ((runModel pre s e ff ext sodaE sodaP warn loads).status ≠ "success" →
      (runModel pre s e ff ext sodaE sodaP warn loads).last_year = pre) ∧
    ((runModel pre s e ff ext sodaE sodaP warn loads).status = "success" →
      (runModel pre s e ff ext sodaE sodaP warn loads).last_year =
        some (calculate_incremental_range pre s e ff).2 ∧
      isOkE ext = true ∧ loads.all isOkE = true ∧
      (sodaE = true → sodaP = false → warn = true)) ∧
    (isOkE ext = false →
      (runModel pre s e ff ext sodaE sodaP warn loads).last_year = pre) ∧
    (loads.any (fun x => !isOkE x) = true →
      (runModel pre s e ff ext sodaE sodaP warn loads).last_year = pre) ∧
    (sodaE = true → sodaP = false → warn = false →
      (runModel pre s e ff ext sodaE sodaP warn loads).last_year = pre) := by
  cases ext with
  | error u =>
    exact ⟨fun _ => rfl, fun h => absurd h (by simp [runModel]), fun _ => rfl, fun _ => rfl,
           fun _ _ _ => rfl⟩
  | ok data =>
    by_cases hemp : data.footprint_data.isEmpty
    · have hred : runModel pre s e ff (.ok data) sodaE sodaP warn loads = ⟨"no_data", pre⟩ := by
        simp [runModel, hemp]
      rw [hred]
      exact ⟨fun _ => rfl, fun h => absurd h (by simp), fun _ => rfl, fun _ => rfl,
             fun _ _ _ => rfl⟩
    · by_cases hsoda : (sodaE && !sodaP && !warn) = true
      · have hred : runModel pre s e ff (.ok data) sodaE sodaP warn loads = ⟨"failed", pre⟩ := by
          simp [runModel, hemp, hsoda]
        rw [hred]
        exact ⟨fun _ => rfl, fun h => absurd h (by simp), fun _ => rfl, fun _ => rfl,
               fun _ _ _ => rfl⟩
      · by_cases hload : loads.any (fun x => !isOkE x) = true
        · have hred : runModel pre s e ff (.ok data) sodaE sodaP warn loads = ⟨"failed", pre⟩ := by
            simp [runModel, hemp, hsoda, hload]
          rw [hred]
          exact ⟨fun _ => rfl, fun h => absurd h (by simp), fun _ => rfl, fun _ => rfl,
                 fun _ _ _ => rfl⟩
        · have hred : runModel pre s e ff (.ok data) sodaE sodaP warn loads =
              ⟨"success", some (calculate_incremental_range pre s e ff).2⟩ := by
            simp [runModel, hemp, hsoda, hload]
          rw [hred]
          refine ⟨fun h => absurd rfl h, ?_, ?_, ?_, ?_⟩
          · intro _
            refine ⟨rfl, rfl, ?_, ?_⟩
            · rw [List.all_eq_true]
              intro x hx
              simp only [List.any_eq_true, not_exists, not_and] at hload
              have := hload x hx
              revert this
              cases isOkE x <;> simp
            · intro h1 h2
              subst h1; subst h2
              revert hsoda
              cases warn <;> simp
          · intro h; simp [isOkE] at h
          · intro h; exact absurd h hload
          · intro h1 h2 h3
            subst h1; subst h2; subst h3
            simp at hsoda

/-- C4 witness: a fully successful run writes `actual_end`; a failed load
leaves the pre-run watermark. -/
theorem C4_watermark_witness :
    (runModel (some 2019) 2020 2022 false
      (.ok ⟨[], [mkFact (some 1) (some 2020) (some (some "EFtot")) none none none], []⟩)
      false true false [.ok ()]).last_year =
      some (calculate_incremental_range (some 2019) 2020 2022 false).2 ∧
    (runModel (some 2019) 2020 2022 false
      (.ok ⟨[], [mkFact (some 1) (some 2020) (some (some "EFtot")) none none none], []⟩)
      false true false [.error ()]).last_year = some 2019 :=
  ⟨((C4_watermark (some 2019) 2020 2022 false
      (.ok ⟨[], [mkFact (some 1) (some 2020) (some (some "EFtot")) none none none], []⟩)
      false true false [.ok ()]).2.1 (by decide)).1,
   (C4_watermark (some 2019) 2020 2022 false
      (.ok ⟨[], [mkFact (some 1) (some 2020) (some (some "EFtot")) none none none], []⟩)
      false true false [.error ()]).2.2.2.1 (by decide)⟩

/-- C5: the claim as stated fails on the low-level retrying client
`GFNClient.get_json`: on a 429 with `Retry-After: 2` followed by a 200 it
sleeps the 2-second header value AND then tenacity's exponential-backoff
wait (1s for the first retry) — total sleeps `[2, 1]`, not `[2]`: the
header does not bypass the generic backoff there. -/
theorem C5_counterexample :
    (get_json (β := Unit) [.status 429 (some 2) (), .status 200 none ()]).1 = [2, 1] ∧
    ([(2 : ℚ), 1] ≠ [(2 : ℚ)]) ∧
    (get_json (β := Unit) [.status 429 (some 2) (), .status 200 none ()]).2 = .ok () := by
  refine ⟨?_, by simp, rfl⟩
  norm_num [get_json, getJsonGo, retryableStatus, tenacityWait]

/-- C5 (amended): on a 429 with a `Retry-After` header of `n` seconds
followed by a 200, the bulk per-year fetcher `fetch_year_all_data` waits
exactly `n` seconds and retries, bypassing its exponential backoff; the
low-level client `get_json` sleeps the `n`-second header value and then
additionally its generic exponential-backoff wait (1 second before the
first retry) before succeeding. -/
theorem C5_retry_after (n : ℤ) (descs : List (String × String)) (ea : String)
    (body b2 : List ApiRecord) (rest : List (HttpOutcome (List ApiRecord))) :
    fetch_year_all_data descs ea
        (.status 429 (some n) b2 :: .status 200 none body :: rest)
      = ([(n : ℚ)], body.filterMap (toFact descs ea)) ∧
    (get_json [.status 429 (some n) b2, .status 200 none body]).1 = [(n : ℚ), 1] ∧
    (get_json [.status 429 (some n) b2, .status 200 none body]).2 = .ok body := by
  refine ⟨?_, ?_, rfl⟩
  · show fetchYearGo descs ea 0 _ = _
    simp [fetchYearGo]
  · norm_num [get_json, getJsonGo, retryableStatus, tenacityWait]

/-- Test fixture: a bulk-endpoint record with the given code, year and
record type, all metrics absent. -/
def mkApiRecord (cc : Option String) (y : Option Int) (rt : Option String) : ApiRecord :=
  { countryCode := cc, countryName := none, shortName := none, isoa2 := none,
    year := y, record := rt, cropLand := none, grazingLand := none,
    forestLand := none, fishingGround := none, builtupLand := none,
    carbon := none, value := none, score := none }

/-- C6: the claim as stated fails on the bulk per-year fetch: an HTTP 5xx
does NOT cause a retry there — `fetch_year_all_data` returns an empty list
immediately on a 500, even though the next scripted response is a 200 whose
body would have produced a fact. -/
theorem C6_counterexample :
    fetch_year_all_data [] "e"
        [.status 500 none [], .status 200 none [mkApiRecord (some "1") (some 2020) (some "EFtot")]]
      = ([], []) ∧
    (fetch_year_all_data [] "e"
        [.status 200 none [mkApiRecord (some "1") (some 2020) (some "EFtot")]]).2 ≠ [] := by
  decide

/-- C6 (amended): in the bulk per-year fetch, connection/timeout errors and
HTTP 429 cause a retry, with up to 3 attempts before the call gives up
empty; any other non-200 status — the non-retryable 4xx but ALSO the 5xx
family — returns an empty list immediately without retrying. The separate
low-level client `get_json` does retry 500s and fails immediately on other
4xx without consuming further responses. -/
theorem C6_retry_policy (descs : List (String × String)) (ea : String)
    (ra1 ra2 ra3 ra : Option Int) (b1 b2 b3 body : List ApiRecord)
    (rest : List (HttpOutcome (List ApiRecord))) :
    fetch_year_all_data descs ea
        (.status 429 ra1 b1 :: .status 429 ra2 b2 :: .status 429 ra3 b3 :: rest)
      = ([(((ra1.getD 5 : ℤ)) : ℚ), (((ra2.getD 5 : ℤ)) : ℚ), (((ra3.getD 5 : ℤ)) : ℚ)], []) ∧
    fetch_year_all_data descs ea (.timeout :: .connError :: .status 200 none body :: rest)
      = ([1, 2], body.filterMap (toFact descs ea)) ∧
    fetch_year_all_data descs ea (.timeout :: .timeout :: .timeout :: rest)
      = ([1, 2], []) ∧
    fetch_year_all_data descs ea (.status 429 ra b1 :: .status 200 none body :: rest)
      = ([(((ra.getD 5 : ℤ)) : ℚ)], body.filterMap (toFact descs ea)) ∧
    fetch_year_all_data descs ea (.status 404 ra b1 :: rest) = ([], []) ∧
    fetch_year_all_data descs ea (.status 400 ra b1 :: rest) = ([], []) ∧
    fetch_year_all_data descs ea (.status 500 ra b1 :: rest) = ([], []) ∧
    fetch_year_all_data descs ea (.status 503 ra b1 :: rest) = ([], []) ∧
    (get_json (.status 500 ra b1 :: .status 200 none body :: rest)).2 = .ok body ∧
    (get_json [.status 404 ra b1]).2 = .error () ∧
    (get_json (.status 404 ra b1 :: .status 200 none body :: rest)).2 = .error () := by
  refine ⟨?_, ?_, ?_, ?_, ?_, ?_, ?_, ?_, ?_, rfl, rfl⟩
  · show fetchYearGo descs ea 0 _ = _
    cases rest <;> norm_num [fetchYearGo]
  · show fetchYearGo descs ea 0 _ = _
    norm_num [fetchYearGo]
  · show fetchYearGo descs ea 0 _ = _
    norm_num [fetchYearGo]
  · show fetchYearGo descs ea 0 _ = _
    norm_num [fetchYearGo]
  · show fetchYearGo descs ea 0 _ = _
    norm_num [fetchYearGo]
  · show fetchYearGo descs ea 0 _ = _
    norm_num [fetchYearGo]
  · show fetchYearGo descs ea 0 _ = _
    norm_num [fetchYearGo]
  · show fetchYearGo descs ea 0 _ = _
    norm_num [fetchYearGo]
  · norm_num [get_json, getJsonGo, retryableStatus]

theorem toBatches_flatten_aux {α : Type} (n : Nat) :
    ∀ (N : Nat) (l : List α), l.length ≤ N → (toBatches n l).flatten = l := by
  intro N
  induction N with
  | zero =>
    intro l h
    have : l = [] := List.length_eq_zero.mp (Nat.le_zero.mp h)
    subst this
    simp [toBatches]
  | succ N ih =>
    intro l h
    cases l with
    | nil => simp [toBatches]
    | cons x xs =>
      have hstep : toBatches n (x :: xs) =
          (x :: xs.take (n - 1)) :: toBatches n (xs.drop (n - 1)) := by
        simp [toBatches]
      rw [hstep, List.flatten_cons,
        ih (xs.drop (n - 1)) (by
          have := List.length_drop (n - 1) xs
          simp only [List.length_cons] at h
          omega),
        List.cons_append, List.take_append_drop]

/-- Batch slicing preserves the year sequence. -/
theorem toBatches_flatten {α : Type} (n : Nat) (l : List α) :
    (toBatches n l).flatten = l :=
  toBatches_flatten_aux n l.length l le_rfl

theorem flatten_map_flatten_map {α β : Type} (f : α → List β) :
    ∀ (bs : List (List α)),
      (bs.map (fun batch => (batch.map f).flatten)).flatten =
        ((bs.flatten).map f).flatten := by
  intro bs
  induction bs with
  | nil => rfl
  | cons b bs ih => simp [List.flatten_cons, List.map_append, List.flatten_append, ih]

/-- Fetching by parallel batches accumulates exactly the per-year results
concatenated in year order, whatever the batch size. -/
theorem fetch_years_parallel_eq
    (year_script : Int → List (HttpOutcome (List ApiRecord)))
    (descs : List (String × String)) (ea : String) (years : List Int)
    (batch_size : Nat) :
    fetch_years_parallel year_script descs ea years batch_size =
      (years.map (fun y => (fetch_year_all_data descs ea (year_script y)).2)).flatten := by
  unfold fetch_years_parallel
  rw [flatten_map_flatten_map, toBatches_flatten]

/-- C7 (confirmed): the per-year fetch absorbs its own failures — a year
whose attempts exhaust the retry budget contributes an empty list — and the
extraction returns the (filtered) concatenation of the per-year results in
year order; `extract_all_data` fails exactly when type discovery produced
nothing or the country-list fetch failed, and never because of a failed
year. -/
theorem C7_failed_year_tolerance (available_types : List (String × String))
    (countries_resp : HttpOutcome (List ApiCountry))
    (year_script : Int → List (HttpOutcome (List ApiRecord)))
    (s e : Int) (filt : Option (List String)) (b : Nat) (ea : String) :
    (isOkE (extract_all_data available_types countries_resp year_script s e filt b ea)
      = (!available_types.isEmpty && isOkE (fetch_countries countries_resp ea))) ∧
    (extractFactsOpt (extract_all_data available_types countries_resp year_script s e filt b ea)
      = if available_types.isEmpty then none
        else
          match fetch_countries countries_resp ea with
          | .error _ => none
          | .ok _ => some (applyFilter filt
              ((yearRange s e).map
                (fun y => (fetch_year_all_data available_types ea (year_script y)).2)).flatten)) ∧
    ((fetch_year_all_data available_types ea [.timeout, .timeout, .timeout]).2 = []) := by
  refine ⟨?_, ?_, by norm_num [fetch_year_all_data, fetchYearGo]⟩
  · by_cases hemp : available_types.isEmpty
    · simp [extract_all_data, hemp, isOkE]
    · cases hc : fetch_countries countries_resp ea with
      | error u => simp [extract_all_data, hemp, hc, isOkE]
      | ok cs => simp [extract_all_data, hemp, hc, isOkE]
  · by_cases hemp : available_types.isEmpty
    · simp [extract_all_data, hemp, extractFactsOpt]
    · cases hc : fetch_countries countries_resp ea with
      | error u => simp [extract_all_data, hemp, hc, extractFactsOpt]
      | ok cs =>
        simp [extract_all_data, hemp, hc, extractFactsOpt, fetch_years_parallel_eq]
